import Mathlib

/-!
Verification of the srtparse repository against its specification.

The Python sources are shallowly embedded:

* `src/models/timestamp.py` (identical in content to the `modules.timestamp`
  module imported by the parser): the `Timestamp` value type with carrying
  arithmetic, its comparison operators, its hash-based `__eq__`, and the
  `TimestampBuilder`.  Python's in-place mutation is modelled by state
  passing; a raised `InvalidTimeException` is modelled by `Except.error s`
  where `s` carries the four fields exactly as they stood at the moment of
  the raise (every `raise` in the source happens before any field write of
  the raising method).  Python `math.floor(sum/60)` on integers is floor
  division, and Python `%` is floor modulo; for the positive divisors 60 and
  1000 used here both coincide with Lean's `/` and `%` on `Int` (Euclidean
  division), which is what the definitions below use.

* `src/modules/block.py` and `src/modules/subtitle.py`: the `Block` record,
  the event-sourced change log, `insert_block`, `validate`, the line
  classifier `parse_line` and the `parse_file` state machine.  File reading
  is replaced by an explicit list of lines (each still carrying its trailing
  newline, as produced by `readlines`).
-/

/-- `Timestamp` (src/models/timestamp.py): four integer fields. -/
structure Timestamp where
  hours : Int
  minutes : Int
  seconds : Int
  milliseconds : Int
deriving DecidableEq

/-- The documented field invariant: hours in [0,99], minutes and seconds in
[0,60), milliseconds in [0,1000). -/
def Timestamp.inRange (t : Timestamp) : Prop :=
  0 ≤ t.hours ∧ t.hours ≤ 99 ∧ 0 ≤ t.minutes ∧ t.minutes < 60 ∧
  0 ≤ t.seconds ∧ t.seconds < 60 ∧ 0 ≤ t.milliseconds ∧ t.milliseconds < 1000

instance (t : Timestamp) : Decidable t.inRange := by
  unfold Timestamp.inRange; infer_instance

/-- `Timestamp.compare`: the 4-tuple lexicographic comparison returning
1, -1 or 0 (src/models/timestamp.py lines 87-108). -/
def Timestamp.compare (t other : Timestamp) : Int :=
  if t.hours > other.hours then 1
  else if t.hours < other.hours then -1
  else if t.minutes > other.minutes then 1
  else if t.minutes < other.minutes then -1
  else if t.seconds > other.seconds then 1
  else if t.seconds < other.seconds then -1
  else if t.milliseconds > other.milliseconds then 1
  else if t.milliseconds < other.milliseconds then -1
  else 0

/-- `Timestamp.__hash__`: `hash(hours)+hash(minutes)+hash(seconds)+hash(milliseconds)`.
CPython's `hash` is the identity on the machine-small non-negative integers
that in-range fields are, so the sum of the raw fields is the faithful model
for in-range timestamps. -/
def Timestamp.pyHash (t : Timestamp) : Int :=
  t.hours + t.minutes + t.seconds + t.milliseconds

/-- `Timestamp.__eq__`: `hash(self) == hash(other)`. -/
def Timestamp.pyEq (t other : Timestamp) : Bool :=
  t.pyHash == other.pyHash

/-- `Timestamp.__lt__`: `self.compare(other) < 0`. -/
def Timestamp.pyLt (t other : Timestamp) : Bool :=
  decide (t.compare other < 0)

/-- `Timestamp.__le__`: `self.compare(other) <= 0`. -/
def Timestamp.pyLe (t other : Timestamp) : Bool :=
  decide (t.compare other ≤ 0)

/-- `Timestamp.__ge__`: `self.compare(other) >= 0`. -/
def Timestamp.pyGe (t other : Timestamp) : Bool :=
  decide (t.compare other ≥ 0)

/-- `Timestamp.add_hours`.  `if hours == 0: return self`; otherwise the sum
is range-checked (`> 99` on the positive side, `< 0` on the negative side)
and the raise happens before the field write, so the error value is the
unmodified state. -/
def Timestamp.add_hours (t : Timestamp) (hours : Int) : Except Timestamp Timestamp :=
  if hours = 0 then .ok t
  else if hours > 0 then
    if t.hours + hours > 99 then .error t else .ok { t with hours := t.hours + hours }
  else
    if t.hours + hours < 0 then .error t else .ok { t with hours := t.hours + hours }

/-- `Timestamp.remove_hours`: `add_hours(hours * -1)`. -/
def Timestamp.remove_hours (t : Timestamp) (hours : Int) : Except Timestamp Timestamp :=
  t.add_hours (hours * -1)

/-- `Timestamp.add_minutes`.  The local `sum = self.minutes + minutes` is
inlined.  On overflow (`sum >= 60`) the source carries
`math.floor(sum/60)` hours; on underflow (`sum < 0`) it removes
`math.ceil((sum/60)*-1)` hours, which equals `-(sum / 60)` for floor
division, so `remove_hours` receives `-(sum / 60)`.  In both cases
`self.minutes = sum % 60` runs only after the carry call returned, so a
raise inside the carry leaves the state untouched (`Except.map`). -/
def Timestamp.add_minutes (t : Timestamp) (minutes : Int) : Except Timestamp Timestamp :=
  if minutes = 0 then .ok t
  else if minutes > 0 then
    if t.minutes + minutes ≥ 60 then
      (t.add_hours ((t.minutes + minutes) / 60)).map
        fun t' => { t' with minutes := (t.minutes + minutes) % 60 }
    else .ok { t with minutes := (t.minutes + minutes) % 60 }
  else
    if t.minutes + minutes < 0 then
      (t.remove_hours (-((t.minutes + minutes) / 60))).map
        fun t' => { t' with minutes := (t.minutes + minutes) % 60 }
    else .ok { t with minutes := (t.minutes + minutes) % 60 }

/-- `Timestamp.remove_minutes`: `add_minutes(minutes * -1)`. -/
def Timestamp.remove_minutes (t : Timestamp) (minutes : Int) : Except Timestamp Timestamp :=
  t.add_minutes (minutes * -1)

/-- `Timestamp.add_seconds`: same shape as `add_minutes`, carrying into
minutes. -/
def Timestamp.add_seconds (t : Timestamp) (seconds : Int) : Except Timestamp Timestamp :=
  if seconds = 0 then .ok t
  else if seconds > 0 then
    if t.seconds + seconds ≥ 60 then
      (t.add_minutes ((t.seconds + seconds) / 60)).map
        fun t' => { t' with seconds := (t.seconds + seconds) % 60 }
    else .ok { t with seconds := (t.seconds + seconds) % 60 }
  else
    if t.seconds + seconds < 0 then
      (t.remove_minutes (-((t.seconds + seconds) / 60))).map
        fun t' => { t' with seconds := (t.seconds + seconds) % 60 }
    else .ok { t with seconds := (t.seconds + seconds) % 60 }

/-- `Timestamp.remove_seconds`: `add_seconds(seconds * -1)`. -/
def Timestamp.remove_seconds (t : Timestamp) (seconds : Int) : Except Timestamp Timestamp :=
  t.add_seconds (seconds * -1)

/-- `Timestamp.add_milliseconds`: same shape, modulus 1000, carrying into
seconds. -/
def Timestamp.add_milliseconds (t : Timestamp) (milliseconds : Int) : Except Timestamp Timestamp :=
  if milliseconds = 0 then .ok t
  else if milliseconds > 0 then
    if t.milliseconds + milliseconds ≥ 1000 then
      (t.add_seconds ((t.milliseconds + milliseconds) / 1000)).map
        fun t' => { t' with milliseconds := (t.milliseconds + milliseconds) % 1000 }
    else .ok { t with milliseconds := (t.milliseconds + milliseconds) % 1000 }
  else
    if t.milliseconds + milliseconds < 0 then
      (t.remove_seconds (-((t.milliseconds + milliseconds) / 1000))).map
        fun t' => { t' with milliseconds := (t.milliseconds + milliseconds) % 1000 }
    else .ok { t with milliseconds := (t.milliseconds + milliseconds) % 1000 }

/-- `Timestamp.remove_milliseconds`: `add_milliseconds(milliseconds * -1)`. -/
def Timestamp.remove_milliseconds (t : Timestamp) (milliseconds : Int) : Except Timestamp Timestamp :=
  t.add_milliseconds (milliseconds * -1)

/-- `Timestamp.__sub__`: copies the left operand into a fresh `Timestamp`,
then applies `remove_hours`, `remove_minutes`, `remove_seconds`,
`remove_milliseconds` with the right operand's fields, in that order; an
`InvalidTimeException` raised by any step propagates.  The operands
themselves are never written to (the copy is), which the functional
embedding reflects by leaving `a` and `b` untouched. -/
def Timestamp.sub (a b : Timestamp) : Except Timestamp Timestamp :=
  (a.remove_hours b.hours).bind fun t1 =>
    (t1.remove_minutes b.minutes).bind fun t2 =>
      (t2.remove_seconds b.seconds).bind fun t3 =>
        t3.remove_milliseconds b.milliseconds

/-- Specification measure: the timestamp's total value in milliseconds. -/
def Timestamp.totalMs (t : Timestamp) : Int :=
  t.hours * 3600000 + t.minutes * 60000 + t.seconds * 1000 + t.milliseconds

/-- `TimestampBuilder` (src/models/timestamp.py lines 195-242). -/
structure TimestampBuilder where
  hours : Int
  minutes : Int
  seconds : Int
  milliseconds : Int
deriving DecidableEq

/-- The field whose range check failed, standing for the
`InvalidTimeException("Invalid value for field ...")` message. -/
inductive TimeField where
  | hours
  | minutes
  | seconds
  | milliseconds
deriving DecidableEq

/-- `TimestampBuilder()`: all fields start at 0. -/
def TimestampBuilder.init : TimestampBuilder := ⟨0, 0, 0, 0⟩

/-- `TimestampBuilder.with_hours`: accepts `0 <= hours <= 99`. -/
def TimestampBuilder.with_hours (b : TimestampBuilder) (hours : Int) :
    Except TimeField TimestampBuilder :=
  if 0 ≤ hours ∧ hours ≤ 99 then .ok { b with hours := hours } else .error .hours

/-- `TimestampBuilder.with_minutes`: accepts `0 <= minutes < 60`. -/
def TimestampBuilder.with_minutes (b : TimestampBuilder) (minutes : Int) :
    Except TimeField TimestampBuilder :=
  if 0 ≤ minutes ∧ minutes < 60 then .ok { b with minutes := minutes } else .error .minutes

/-- `TimestampBuilder.with_seconds`: accepts `0 <= seconds < 60`. -/
def TimestampBuilder.with_seconds (b : TimestampBuilder) (seconds : Int) :
    Except TimeField TimestampBuilder :=
  if 0 ≤ seconds ∧ seconds < 60 then .ok { b with seconds := seconds } else .error .seconds

/-- `TimestampBuilder.with_milliseconds`: accepts `0 <= milliseconds < 1000`. -/
def TimestampBuilder.with_milliseconds (b : TimestampBuilder) (milliseconds : Int) :
    Except TimeField TimestampBuilder :=
  if 0 ≤ milliseconds ∧ milliseconds < 1000 then .ok { b with milliseconds := milliseconds }
  else .error .milliseconds

/-- `TimestampBuilder.build`: copies the validated fields into a new
`Timestamp`. -/
def TimestampBuilder.build (b : TimestampBuilder) : Timestamp :=
  ⟨b.hours, b.minutes, b.seconds, b.milliseconds⟩

instance {ε α : Type} [DecidableEq ε] [DecidableEq α] : DecidableEq (Except ε α) := fun x y =>
  match x, y with
  | .error a, .error b =>
    if h : a = b then .isTrue (congrArg Except.error h)
    else .isFalse fun hh => h (Except.error.inj hh)
  | .ok a, .ok b =>
    if h : a = b then .isTrue (congrArg Except.ok h)
    else .isFalse fun hh => h (Except.ok.inj hh)
  | .error _, .ok _ => .isFalse fun hh => Except.noConfusion hh
  | .ok _, .error _ => .isFalse fun hh => Except.noConfusion hh

lemma except_map_ok {α β ε : Type} (f : α → β) (a : α) :
    (Except.ok a : Except ε α).map f = .ok (f a) := rfl

lemma except_map_error {α β ε : Type} (f : α → β) (e : ε) :
    (Except.error e : Except ε α).map f = .error e := rfl

lemma except_bind_ok {α β ε : Type} (f : α → Except ε β) (a : α) :
    (Except.ok a : Except ε α).bind f = f a := rfl

lemma except_bind_error {α β ε : Type} (f : α → Except ε β) (e : ε) :
    (Except.error e : Except ε α).bind f = .error e := rfl

lemma timestamp_eta (t : Timestamp) :
    (⟨t.hours, t.minutes, t.seconds, t.milliseconds⟩ : Timestamp) = t := rfl

/-- Closed form of `add_hours` on a state with in-range hours. -/
lemma add_hours_eq (t : Timestamp) (d : Int) (h0 : 0 ≤ t.hours) (h99 : t.hours ≤ 99) :
    t.add_hours d =
      if 0 ≤ t.hours + d ∧ t.hours + d ≤ 99
      then .ok ⟨t.hours + d, t.minutes, t.seconds, t.milliseconds⟩
      else .error t := by
  unfold Timestamp.add_hours
  by_cases hd0 : d = 0
  · subst hd0
    rw [if_pos rfl, if_pos (by omega)]
    rw [show t.hours + 0 = t.hours from by omega, timestamp_eta]
  · rw [if_neg hd0]
    by_cases hdp : d > 0
    · rw [if_pos hdp]
      by_cases hs : t.hours + d > 99
      · rw [if_pos hs, if_neg (by omega)]
      · rw [if_neg hs, if_pos (by omega)]
    · rw [if_neg hdp]
      by_cases hs : t.hours + d < 0
      · rw [if_pos hs, if_neg (by omega)]
      · rw [if_neg hs, if_pos (by omega)]

/-- Closed form of `add_minutes` on an in-range state: the carry into hours
is the floor quotient, the stored minutes the floor remainder, and a raise
leaves the state untouched. -/
lemma add_minutes_eq (t : Timestamp) (d : Int) (ht : t.inRange) :
    t.add_minutes d =
      if 0 ≤ t.hours + (t.minutes + d) / 60 ∧ t.hours + (t.minutes + d) / 60 ≤ 99
      then .ok ⟨t.hours + (t.minutes + d) / 60, (t.minutes + d) % 60,
                t.seconds, t.milliseconds⟩
      else .error t := by
  obtain ⟨hh0, hh1, hm0, hm1, hs0, hs1, hx0, hx1⟩ := ht
  unfold Timestamp.add_minutes
  by_cases hd0 : d = 0
  · subst hd0
    have e1 : (t.minutes + 0) / 60 = 0 := by omega
    have e2 : (t.minutes + 0) % 60 = t.minutes := by omega
    rw [if_pos rfl, e1, e2, if_pos (by omega)]
    rw [show t.hours + 0 = t.hours from by omega, timestamp_eta]
  · rw [if_neg hd0]
    by_cases hdp : d > 0
    · rw [if_pos hdp]
      by_cases hcar : t.minutes + d ≥ 60
      · rw [if_pos hcar, add_hours_eq t _ hh0 hh1]
        by_cases hok : 0 ≤ t.hours + (t.minutes + d) / 60 ∧ t.hours + (t.minutes + d) / 60 ≤ 99
        · rw [if_pos hok, if_pos hok, except_map_ok]
        · rw [if_neg hok, if_neg hok, except_map_error]
      · rw [if_neg hcar]
        have e1 : (t.minutes + d) / 60 = 0 := by omega
        rw [e1, if_pos (by omega)]
        rw [show t.hours + 0 = t.hours from by omega]
    · rw [if_neg hdp]
      by_cases hcar : t.minutes + d < 0
      · rw [if_pos hcar]
        unfold Timestamp.remove_hours
        rw [show -((t.minutes + d) / 60) * -1 = (t.minutes + d) / 60 from by ring]
        rw [add_hours_eq t _ hh0 hh1]
        by_cases hok : 0 ≤ t.hours + (t.minutes + d) / 60 ∧ t.hours + (t.minutes + d) / 60 ≤ 99
        · rw [if_pos hok, if_pos hok, except_map_ok]
        · rw [if_neg hok, if_neg hok, except_map_error]
      · rw [if_neg hcar]
        have e1 : (t.minutes + d) / 60 = 0 := by omega
        rw [e1, if_pos (by omega)]
        rw [show t.hours + 0 = t.hours from by omega]

/-- Closed form of `add_seconds` on an in-range state: the cascade through
minutes into hours, all floor quotients and remainders. -/
lemma add_seconds_eq (t : Timestamp) (d : Int) (ht : t.inRange) :
    t.add_seconds d =
      if 0 ≤ t.hours + (t.minutes + (t.seconds + d) / 60) / 60 ∧
         t.hours + (t.minutes + (t.seconds + d) / 60) / 60 ≤ 99
      then .ok ⟨t.hours + (t.minutes + (t.seconds + d) / 60) / 60,
                (t.minutes + (t.seconds + d) / 60) % 60,
                (t.seconds + d) % 60, t.milliseconds⟩
      else .error t := by
  obtain ⟨hh0, hh1, hm0, hm1, hs0, hs1, hx0, hx1⟩ := id ht
  unfold Timestamp.add_seconds
  by_cases hd0 : d = 0
  · subst hd0
    have e1 : (t.seconds + 0) / 60 = 0 := by omega
    have e2 : (t.seconds + 0) % 60 = t.seconds := by omega
    rw [if_pos rfl, e1, e2]
    have e3 : (t.minutes + 0) / 60 = 0 := by omega
    have e4 : (t.minutes + 0) % 60 = t.minutes := by omega
    rw [e3, e4, if_pos (by omega)]
    rw [show t.hours + 0 = t.hours from by omega, timestamp_eta]
  · rw [if_neg hd0]
    by_cases hdp : d > 0
    · rw [if_pos hdp]
      by_cases hcar : t.seconds + d ≥ 60
      · rw [if_pos hcar, add_minutes_eq t _ ht]
        by_cases hok : 0 ≤ t.hours + (t.minutes + (t.seconds + d) / 60) / 60 ∧
            t.hours + (t.minutes + (t.seconds + d) / 60) / 60 ≤ 99
        · rw [if_pos hok, if_pos hok, except_map_ok]
        · rw [if_neg hok, if_neg hok, except_map_error]
      · rw [if_neg hcar]
        have e1 : (t.seconds + d) / 60 = 0 := by omega
        rw [e1]
        have e2 : (t.minutes + 0) / 60 = 0 := by omega
        have e3 : (t.minutes + 0) % 60 = t.minutes := by omega
        rw [e2, e3, if_pos (by omega), show t.hours + 0 = t.hours from by omega]
    · rw [if_neg hdp]
      by_cases hcar : t.seconds + d < 0
      · rw [if_pos hcar]
        unfold Timestamp.remove_minutes
        rw [show -((t.seconds + d) / 60) * -1 = (t.seconds + d) / 60 from by ring]
        rw [add_minutes_eq t _ ht]
        by_cases hok : 0 ≤ t.hours + (t.minutes + (t.seconds + d) / 60) / 60 ∧
            t.hours + (t.minutes + (t.seconds + d) / 60) / 60 ≤ 99
        · rw [if_pos hok, if_pos hok, except_map_ok]
        · rw [if_neg hok, if_neg hok, except_map_error]
      · rw [if_neg hcar]
        have e1 : (t.seconds + d) / 60 = 0 := by omega
        rw [e1]
        have e2 : (t.minutes + 0) / 60 = 0 := by omega
        have e3 : (t.minutes + 0) % 60 = t.minutes := by omega
        rw [e2, e3, if_pos (by omega), show t.hours + 0 = t.hours from by omega]

/-- Closed form of `add_milliseconds` on an in-range state: the full carry
cascade milliseconds → seconds → minutes → hours. -/
lemma add_milliseconds_eq (t : Timestamp) (d : Int) (ht : t.inRange) :
    t.add_milliseconds d =
      if 0 ≤ t.hours + (t.minutes + (t.seconds + (t.milliseconds + d) / 1000) / 60) / 60 ∧
         t.hours + (t.minutes + (t.seconds + (t.milliseconds + d) / 1000) / 60) / 60 ≤ 99
      then .ok ⟨t.hours + (t.minutes + (t.seconds + (t.milliseconds + d) / 1000) / 60) / 60,
                (t.minutes + (t.seconds + (t.milliseconds + d) / 1000) / 60) % 60,
                (t.seconds + (t.milliseconds + d) / 1000) % 60,
                (t.milliseconds + d) % 1000⟩
      else .error t := by
  obtain ⟨hh0, hh1, hm0, hm1, hs0, hs1, hx0, hx1⟩ := id ht
  unfold Timestamp.add_milliseconds
  by_cases hd0 : d = 0
  · subst hd0
    have e1 : (t.milliseconds + 0) / 1000 = 0 := by omega
    have e2 : (t.milliseconds + 0) % 1000 = t.milliseconds := by omega
    rw [if_pos rfl, e1, e2]
    have e3 : (t.seconds + 0) / 60 = 0 := by omega
    have e4 : (t.seconds + 0) % 60 = t.seconds := by omega
    rw [e3, e4]
    have e5 : (t.minutes + 0) / 60 = 0 := by omega
    have e6 : (t.minutes + 0) % 60 = t.minutes := by omega
    rw [e5, e6, if_pos (by omega)]
    rw [show t.hours + 0 = t.hours from by omega, timestamp_eta]
  · rw [if_neg hd0]
    by_cases hdp : d > 0
    · rw [if_pos hdp]
      by_cases hcar : t.milliseconds + d ≥ 1000
      · rw [if_pos hcar, add_seconds_eq t _ ht]
        by_cases hok : 0 ≤ t.hours +
              (t.minutes + (t.seconds + (t.milliseconds + d) / 1000) / 60) / 60 ∧
            t.hours + (t.minutes + (t.seconds + (t.milliseconds + d) / 1000) / 60) / 60 ≤ 99
        · rw [if_pos hok, if_pos hok, except_map_ok]
        · rw [if_neg hok, if_neg hok, except_map_error]
      · rw [if_neg hcar]
        have e1 : (t.milliseconds + d) / 1000 = 0 := by omega
        rw [e1]
        have e2 : (t.seconds + 0) / 60 = 0 := by omega
        have e3 : (t.seconds + 0) % 60 = t.seconds := by omega
        rw [e2, e3]
        have e4 : (t.minutes + 0) / 60 = 0 := by omega
        have e5 : (t.minutes + 0) % 60 = t.minutes := by omega
        rw [e4, e5, if_pos (by omega), show t.hours + 0 = t.hours from by omega]
    · rw [if_neg hdp]
      by_cases hcar : t.milliseconds + d < 0
      · rw [if_pos hcar]
        unfold Timestamp.remove_seconds
        rw [show -((t.milliseconds + d) / 1000) * -1 = (t.milliseconds + d) / 1000 from by ring]
        rw [add_seconds_eq t _ ht]
        by_cases hok : 0 ≤ t.hours +
              (t.minutes + (t.seconds + (t.milliseconds + d) / 1000) / 60) / 60 ∧
            t.hours + (t.minutes + (t.seconds + (t.milliseconds + d) / 1000) / 60) / 60 ≤ 99
        · rw [if_pos hok, if_pos hok, except_map_ok]
        · rw [if_neg hok, if_neg hok, except_map_error]
      · rw [if_neg hcar]
        have e1 : (t.milliseconds + d) / 1000 = 0 := by omega
        rw [e1]
        have e2 : (t.seconds + 0) / 60 = 0 := by omega
        have e3 : (t.seconds + 0) % 60 = t.seconds := by omega
        rw [e2, e3]
        have e4 : (t.minutes + 0) / 60 = 0 := by omega
        have e5 : (t.minutes + 0) % 60 = t.minutes := by omega
        rw [e4, e5, if_pos (by omega), show t.hours + 0 = t.hours from by omega]

lemma mk_hours (h m s ms : Int) : (Timestamp.mk h m s ms).hours = h := rfl

lemma mk_minutes (h m s ms : Int) : (Timestamp.mk h m s ms).minutes = m := rfl

lemma mk_seconds (h m s ms : Int) : (Timestamp.mk h m s ms).seconds = s := rfl

lemma mk_milliseconds (h m s ms : Int) : (Timestamp.mk h m s ms).milliseconds = ms := rfl

/-- `compare` returns 0 exactly on structural agreement of all four fields. -/
lemma compare_eq_zero_iff (t o : Timestamp) :
    t.compare o = 0 ↔
      (t.hours = o.hours ∧ t.minutes = o.minutes ∧
       t.seconds = o.seconds ∧ t.milliseconds = o.milliseconds) := by
  unfold Timestamp.compare
  repeat' split
  all_goals omega

/-- For in-range timestamps the lexicographic order agrees with the order of
total milliseconds. -/
lemma compare_lt_iff (t o : Timestamp) (ht : t.inRange) (ho : o.inRange) :
    t.compare o < 0 ↔ t.totalMs < o.totalMs := by
  obtain ⟨h1, h2, h3, h4, h5, h6, h7, h8⟩ := ht
  obtain ⟨g1, g2, g3, g4, g5, g6, g7, g8⟩ := ho
  unfold Timestamp.compare Timestamp.totalMs
  repeat' split
  all_goals omega

/-- C4: on an in-range timestamp, whenever `add_milliseconds` (likewise
`add_seconds`, `add_minutes`, `add_hours`) returns without raising, the
result is in range, its total value in milliseconds is the original total
plus the delta converted to milliseconds, and the directly-touched unit
stores the floor-modulo remainder; the `remove_*` operations are exactly the
`add_*` operations with the sign of the delta flipped. -/
theorem claim_c4 (t t' : Timestamp) (d : Int) (ht : t.inRange) :
    (t.add_milliseconds d = .ok t' → t'.inRange ∧ t'.totalMs = t.totalMs + d ∧
      t'.milliseconds = (t.milliseconds + d) % 1000) ∧
    (t.add_seconds d = .ok t' → t'.inRange ∧ t'.totalMs = t.totalMs + d * 1000 ∧
      t'.seconds = (t.seconds + d) % 60) ∧
    (t.add_minutes d = .ok t' → t'.inRange ∧ t'.totalMs = t.totalMs + d * 60000 ∧
      t'.minutes = (t.minutes + d) % 60) ∧
    (t.add_hours d = .ok t' → t'.inRange ∧ t'.totalMs = t.totalMs + d * 3600000) ∧
    t.remove_milliseconds d = t.add_milliseconds (d * -1) ∧
    t.remove_seconds d = t.add_seconds (d * -1) ∧
    t.remove_minutes d = t.add_minutes (d * -1) ∧
    t.remove_hours d = t.add_hours (d * -1) := by
  obtain ⟨h1, h2, h3, h4, h5, h6, h7, h8⟩ := id ht
  refine ⟨?_, ?_, ?_, ?_, rfl, rfl, rfl, rfl⟩
  · intro h
    rw [add_milliseconds_eq t d ht] at h
    split at h
    · injection h with h
      subst h
      simp only [Timestamp.inRange, Timestamp.totalMs, mk_hours, mk_minutes,
        mk_seconds, mk_milliseconds, and_true]
      omega
    · simp at h
  · intro h
    rw [add_seconds_eq t d ht] at h
    split at h
    · injection h with h
      subst h
      simp only [Timestamp.inRange, Timestamp.totalMs, mk_hours, mk_minutes,
        mk_seconds, mk_milliseconds, and_true]
      omega
    · simp at h
  · intro h
    rw [add_minutes_eq t d ht] at h
    split at h
    · injection h with h
      subst h
      simp only [Timestamp.inRange, Timestamp.totalMs, mk_hours, mk_minutes,
        mk_seconds, mk_milliseconds, and_true]
      omega
    · simp at h
  · intro h
    rw [add_hours_eq t d h1 h2] at h
    split at h
    · injection h with h
      subst h
      simp only [Timestamp.inRange, Timestamp.totalMs, mk_hours, mk_minutes,
        mk_seconds, mk_milliseconds, and_true]
      omega
    · simp at h

/-- Witness for C4 at the spec's own example: `(1,59,59,999) + 1ms = (2,0,0,0)`. -/
theorem claim_c4_witness :
    Timestamp.inRange ⟨2, 0, 0, 0⟩ ∧
    Timestamp.totalMs ⟨2, 0, 0, 0⟩ = Timestamp.totalMs ⟨1, 59, 59, 999⟩ + 1 ∧
    Timestamp.milliseconds ⟨2, 0, 0, 0⟩ = (Timestamp.milliseconds ⟨1, 59, 59, 999⟩ + 1) % 1000 :=
  (claim_c4 ⟨1, 59, 59, 999⟩ ⟨2, 0, 0, 0⟩ 1 (by decide)).1 (by rfl)

/-- C9: on an in-range timestamp, if any of the eight arithmetic operations
raises `InvalidTimeException`, the fields at the moment of the raise are the
original fields unchanged — the operation is all-or-nothing. -/
theorem claim_c9 (t e : Timestamp) (d : Int) (ht : t.inRange) :
    (t.add_hours d = .error e → e = t) ∧ (t.add_minutes d = .error e → e = t) ∧
    (t.add_seconds d = .error e → e = t) ∧ (t.add_milliseconds d = .error e → e = t) ∧
    (t.remove_hours d = .error e → e = t) ∧ (t.remove_minutes d = .error e → e = t) ∧
    (t.remove_seconds d = .error e → e = t) ∧ (t.remove_milliseconds d = .error e → e = t) := by
  obtain ⟨h1, h2, h3, h4, h5, h6, h7, h8⟩ := id ht
  have ah : ∀ x, t.add_hours x = .error e → e = t := by
    intro x h
    rw [add_hours_eq t x h1 h2] at h
    split at h
    · simp at h
    · injection h with h
      exact h.symm
  have am : ∀ x, t.add_minutes x = .error e → e = t := by
    intro x h
    rw [add_minutes_eq t x ht] at h
    split at h
    · simp at h
    · injection h with h
      exact h.symm
  have as' : ∀ x, t.add_seconds x = .error e → e = t := by
    intro x h
    rw [add_seconds_eq t x ht] at h
    split at h
    · simp at h
    · injection h with h
      exact h.symm
  have ax : ∀ x, t.add_milliseconds x = .error e → e = t := by
    intro x h
    rw [add_milliseconds_eq t x ht] at h
    split at h
    · simp at h
    · injection h with h
      exact h.symm
  exact ⟨ah d, am d, as' d, ax d, ah (d * -1), am (d * -1), as' (d * -1), ax (d * -1)⟩

/-- Witness for C9: `remove_hours 1` on hours 0 raises and reports the state
unchanged. -/
theorem claim_c9_witness :
    (Timestamp.remove_hours ⟨0, 0, 0, 0⟩ 1 = .error ⟨0, 0, 0, 0⟩ →
      (⟨0, 0, 0, 0⟩ : Timestamp) = ⟨0, 0, 0, 0⟩) ∧
    Timestamp.remove_hours ⟨0, 0, 0, 0⟩ 1 = .error ⟨0, 0, 0, 0⟩ :=
  ⟨(claim_c9 ⟨0, 0, 0, 0⟩ ⟨0, 0, 0, 0⟩ 1 (by decide)).2.2.2.2.1, by rfl⟩

/-- C1 fails on the code: `Timestamp.__eq__` compares the *sums* of the four
fields (via `__hash__`), so the in-range timestamps `00:00:00.001` and
`00:00:01.000` compare equal under `==` although they differ structurally and
`compare` does not return 0. -/
theorem claim_c1_counterexample :
    Timestamp.inRange ⟨0, 0, 0, 1⟩ ∧ Timestamp.inRange ⟨0, 0, 1, 0⟩ ∧
    Timestamp.pyEq ⟨0, 0, 0, 1⟩ ⟨0, 0, 1, 0⟩ = true ∧
    (Timestamp.mk 0 0 0 1 ≠ Timestamp.mk 0 0 1 0) ∧
    Timestamp.compare ⟨0, 0, 0, 1⟩ ⟨0, 0, 1, 0⟩ ≠ 0 := by decide

/-- C1 amended: for in-range timestamps, `t1 == t2` holds iff the two field
*sums* (the hashes) agree; `compare` returns 0 exactly on structural
agreement of the four fields, and structural agreement implies `==`, but not
conversely. -/
theorem claim_c1_amended (t o : Timestamp) (ht : t.inRange) (ho : o.inRange) :
    (t.pyEq o = true ↔ t.pyHash = o.pyHash) ∧
    (t.compare o = 0 ↔ (t.hours = o.hours ∧ t.minutes = o.minutes ∧
      t.seconds = o.seconds ∧ t.milliseconds = o.milliseconds)) ∧
    (t.compare o = 0 → t.pyEq o = true) := by
  refine ⟨by simp [Timestamp.pyEq], compare_eq_zero_iff t o, ?_⟩
  intro h
  rw [compare_eq_zero_iff t o] at h
  simp [Timestamp.pyEq, Timestamp.pyHash, h.1, h.2.1, h.2.2.1, h.2.2.2]

/-- Witness for C1 amended at two equal in-range timestamps. -/
theorem claim_c1_amended_witness :
    (Timestamp.pyEq ⟨1, 2, 3, 4⟩ ⟨1, 2, 3, 4⟩ = true ↔
      Timestamp.pyHash ⟨1, 2, 3, 4⟩ = Timestamp.pyHash ⟨1, 2, 3, 4⟩) ∧
    (Timestamp.compare ⟨1, 2, 3, 4⟩ ⟨1, 2, 3, 4⟩ = 0 ↔
      (Timestamp.hours ⟨1, 2, 3, 4⟩ = Timestamp.hours ⟨1, 2, 3, 4⟩ ∧
       Timestamp.minutes ⟨1, 2, 3, 4⟩ = Timestamp.minutes ⟨1, 2, 3, 4⟩ ∧
       Timestamp.seconds ⟨1, 2, 3, 4⟩ = Timestamp.seconds ⟨1, 2, 3, 4⟩ ∧
       Timestamp.milliseconds ⟨1, 2, 3, 4⟩ = Timestamp.milliseconds ⟨1, 2, 3, 4⟩)) ∧
    (Timestamp.compare ⟨1, 2, 3, 4⟩ ⟨1, 2, 3, 4⟩ = 0 →
      Timestamp.pyEq ⟨1, 2, 3, 4⟩ ⟨1, 2, 3, 4⟩ = true) :=
  claim_c1_amended ⟨1, 2, 3, 4⟩ ⟨1, 2, 3, 4⟩ (by decide) (by decide)

lemma isOk_ok {ε α : Type} (a : α) : (Except.ok a : Except ε α).isOk = true := rfl

lemma isOk_error {ε α : Type} (e : ε) : (Except.error e : Except ε α).isOk = false := rfl

/-- `add_hours` succeeds exactly when the shifted total stays inside the
representable window `[0, 100h)`, and then shifts the total by the delta. -/
lemma add_hours_total (t : Timestamp) (d : Int) (ht : t.inRange) :
    (0 ≤ t.totalMs + d * 3600000 ∧ t.totalMs + d * 3600000 < 360000000 →
      ∃ c, t.add_hours d = .ok c ∧ c.inRange ∧ c.totalMs = t.totalMs + d * 3600000) ∧
    (¬(0 ≤ t.totalMs + d * 3600000 ∧ t.totalMs + d * 3600000 < 360000000) →
      t.add_hours d = .error t) := by
  obtain ⟨h1, h2, h3, h4, h5, h6, h7, h8⟩ := id ht
  have et : t.totalMs = t.hours * 3600000 + t.minutes * 60000 + t.seconds * 1000 +
      t.milliseconds := rfl
  rw [add_hours_eq t d h1 h2]
  constructor
  · intro hw
    rw [if_pos (show 0 ≤ t.hours + d ∧ t.hours + d ≤ 99 from by omega)]
    refine ⟨⟨t.hours + d, t.minutes, t.seconds, t.milliseconds⟩, rfl, ?_, ?_⟩
    · simp only [Timestamp.inRange, mk_hours, mk_minutes, mk_seconds, mk_milliseconds]
      omega
    · simp only [Timestamp.totalMs, mk_hours, mk_minutes, mk_seconds, mk_milliseconds]
      omega
  · intro hw
    rw [if_neg (show ¬(0 ≤ t.hours + d ∧ t.hours + d ≤ 99) from by omega)]

/-- `add_minutes` succeeds exactly when the shifted total stays inside the
window, and then shifts the total by the delta in minutes. -/
lemma add_minutes_total (t : Timestamp) (d : Int) (ht : t.inRange) :
    (0 ≤ t.totalMs + d * 60000 ∧ t.totalMs + d * 60000 < 360000000 →
      ∃ c, t.add_minutes d = .ok c ∧ c.inRange ∧ c.totalMs = t.totalMs + d * 60000) ∧
    (¬(0 ≤ t.totalMs + d * 60000 ∧ t.totalMs + d * 60000 < 360000000) →
      t.add_minutes d = .error t) := by
  obtain ⟨h1, h2, h3, h4, h5, h6, h7, h8⟩ := id ht
  have et : t.totalMs = t.hours * 3600000 + t.minutes * 60000 + t.seconds * 1000 +
      t.milliseconds := rfl
  rw [add_minutes_eq t d ht]
  constructor
  · intro hw
    rw [if_pos (show 0 ≤ t.hours + (t.minutes + d) / 60 ∧
        t.hours + (t.minutes + d) / 60 ≤ 99 from by omega)]
    refine ⟨_, rfl, ?_, ?_⟩
    · simp only [Timestamp.inRange, mk_hours, mk_minutes, mk_seconds, mk_milliseconds]
      omega
    · simp only [Timestamp.totalMs, mk_hours, mk_minutes, mk_seconds, mk_milliseconds]
      omega
  · intro hw
    rw [if_neg (show ¬(0 ≤ t.hours + (t.minutes + d) / 60 ∧
        t.hours + (t.minutes + d) / 60 ≤ 99) from by omega)]

/-- `add_seconds` succeeds exactly when the shifted total stays inside the
window, and then shifts the total by the delta in seconds. -/
lemma add_seconds_total (t : Timestamp) (d : Int) (ht : t.inRange) :
    (0 ≤ t.totalMs + d * 1000 ∧ t.totalMs + d * 1000 < 360000000 →
      ∃ c, t.add_seconds d = .ok c ∧ c.inRange ∧ c.totalMs = t.totalMs + d * 1000) ∧
    (¬(0 ≤ t.totalMs + d * 1000 ∧ t.totalMs + d * 1000 < 360000000) →
      t.add_seconds d = .error t) := by
  obtain ⟨h1, h2, h3, h4, h5, h6, h7, h8⟩ := id ht
  have et : t.totalMs = t.hours * 3600000 + t.minutes * 60000 + t.seconds * 1000 +
      t.milliseconds := rfl
  rw [add_seconds_eq t d ht]
  constructor
  · intro hw
    rw [if_pos (show 0 ≤ t.hours + (t.minutes + (t.seconds + d) / 60) / 60 ∧
        t.hours + (t.minutes + (t.seconds + d) / 60) / 60 ≤ 99 from by omega)]
    refine ⟨_, rfl, ?_, ?_⟩
    · simp only [Timestamp.inRange, mk_hours, mk_minutes, mk_seconds, mk_milliseconds]
      omega
    · simp only [Timestamp.totalMs, mk_hours, mk_minutes, mk_seconds, mk_milliseconds]
      omega
  · intro hw
    rw [if_neg (show ¬(0 ≤ t.hours + (t.minutes + (t.seconds + d) / 60) / 60 ∧
        t.hours + (t.minutes + (t.seconds + d) / 60) / 60 ≤ 99) from by omega)]

/-- `add_milliseconds` succeeds exactly when the shifted total stays inside
the window, and then shifts the total by the delta. -/
lemma add_milliseconds_total (t : Timestamp) (d : Int) (ht : t.inRange) :
    (0 ≤ t.totalMs + d ∧ t.totalMs + d < 360000000 →
      ∃ c, t.add_milliseconds d = .ok c ∧ c.inRange ∧ c.totalMs = t.totalMs + d) ∧
    (¬(0 ≤ t.totalMs + d ∧ t.totalMs + d < 360000000) →
      t.add_milliseconds d = .error t) := by
  obtain ⟨h1, h2, h3, h4, h5, h6, h7, h8⟩ := id ht
  have et : t.totalMs = t.hours * 3600000 + t.minutes * 60000 + t.seconds * 1000 +
      t.milliseconds := rfl
  rw [add_milliseconds_eq t d ht]
  constructor
  · intro hw
    rw [if_pos (show
        0 ≤ t.hours + (t.minutes + (t.seconds + (t.milliseconds + d) / 1000) / 60) / 60 ∧
        t.hours + (t.minutes + (t.seconds + (t.milliseconds + d) / 1000) / 60) / 60 ≤ 99
        from by omega)]
    refine ⟨_, rfl, ?_, ?_⟩
    · simp only [Timestamp.inRange, mk_hours, mk_minutes, mk_seconds, mk_milliseconds]
      omega
    · simp only [Timestamp.totalMs, mk_hours, mk_minutes, mk_seconds, mk_milliseconds]
      omega
  · intro hw
    rw [if_neg (show ¬(
        0 ≤ t.hours + (t.minutes + (t.seconds + (t.milliseconds + d) / 1000) / 60) / 60 ∧
        t.hours + (t.minutes + (t.seconds + (t.milliseconds + d) / 1000) / 60) / 60 ≤ 99)
        from by omega)]

/-- `__sub__` on in-range operands: succeeds with the difference of the
totals when the left operand is at least the right one, and raises
otherwise. -/
lemma sub_spec (a b : Timestamp) (ha : a.inRange) (hb : b.inRange) :
    (b.totalMs ≤ a.totalMs →
      ∃ c, a.sub b = .ok c ∧ c.inRange ∧ c.totalMs = a.totalMs - b.totalMs) ∧
    (a.totalMs < b.totalMs → ∃ e, a.sub b = .error e) := by
  obtain ⟨ga1, ga2, ga3, ga4, ga5, ga6, ga7, ga8⟩ := id ha
  obtain ⟨gb1, gb2, gb3, gb4, gb5, gb6, gb7, gb8⟩ := id hb
  have ea : a.totalMs = a.hours * 3600000 + a.minutes * 60000 + a.seconds * 1000 +
      a.milliseconds := rfl
  have eb : b.totalMs = b.hours * 3600000 + b.minutes * 60000 + b.seconds * 1000 +
      b.milliseconds := rfl
  constructor
  · intro hle
    obtain ⟨c1, E1, R1, T1⟩ := (add_hours_total a (b.hours * -1) ha).1 (by omega)
    obtain ⟨c2, E2, R2, T2⟩ := (add_minutes_total c1 (b.minutes * -1) R1).1 (by omega)
    obtain ⟨c3, E3, R3, T3⟩ := (add_seconds_total c2 (b.seconds * -1) R2).1 (by omega)
    obtain ⟨c4, E4, R4, T4⟩ := (add_milliseconds_total c3 (b.milliseconds * -1) R3).1 (by omega)
    refine ⟨c4, ?_, R4, by omega⟩
    unfold Timestamp.sub
    simp only [Timestamp.remove_hours, Timestamp.remove_minutes, Timestamp.remove_seconds,
      Timestamp.remove_milliseconds]
    rw [E1]
    simp only [except_bind_ok]
    rw [E2]
    simp only [except_bind_ok]
    rw [E3]
    simp only [except_bind_ok]
    rw [E4]
  · intro hlt
    unfold Timestamp.sub
    simp only [Timestamp.remove_hours, Timestamp.remove_minutes, Timestamp.remove_seconds,
      Timestamp.remove_milliseconds]
    by_cases w1 : 0 ≤ a.totalMs + b.hours * -1 * 3600000 ∧
        a.totalMs + b.hours * -1 * 3600000 < 360000000
    · obtain ⟨c1, E1, R1, T1⟩ := (add_hours_total a (b.hours * -1) ha).1 w1
      rw [E1]
      simp only [except_bind_ok]
      by_cases w2 : 0 ≤ c1.totalMs + b.minutes * -1 * 60000 ∧
          c1.totalMs + b.minutes * -1 * 60000 < 360000000
      · obtain ⟨c2, E2, R2, T2⟩ := (add_minutes_total c1 (b.minutes * -1) R1).1 w2
        rw [E2]
        simp only [except_bind_ok]
        by_cases w3 : 0 ≤ c2.totalMs + b.seconds * -1 * 1000 ∧
            c2.totalMs + b.seconds * -1 * 1000 < 360000000
        · obtain ⟨c3, E3, R3, T3⟩ := (add_seconds_total c2 (b.seconds * -1) R2).1 w3
          rw [E3]
          simp only [except_bind_ok]
          have E4 := (add_milliseconds_total c3 (b.milliseconds * -1) R3).2 (by omega)
          rw [E4]
          exact ⟨c3, rfl⟩
        · have E3 := (add_seconds_total c2 (b.seconds * -1) R2).2 w3
          rw [E3]
          exact ⟨c2, rfl⟩
      · have E2 := (add_minutes_total c1 (b.minutes * -1) R1).2 w2
        rw [E2]
        exact ⟨c1, rfl⟩
    · have E1 := (add_hours_total a (b.hours * -1) ha).2 w1
      rw [E1]
      exact ⟨a, rfl⟩

/-- C5: for in-range timestamps, `a - b` raises `InvalidTimeException` if and
only if `a < b` in the lexicographic order; when it returns, the result is in
range and its total in milliseconds is `total(a) - total(b)`.  `__sub__`
works on a fresh copy of `a`, so neither operand is written to, which the
functional embedding reflects. -/
theorem claim_c5 (a b c : Timestamp) (ha : a.inRange) (hb : b.inRange) :
    ((a.sub b).isOk = false ↔ a.pyLt b = true) ∧
    (a.sub b = .ok c → c.inRange ∧ c.totalMs = a.totalMs - b.totalMs) := by
  have hs := sub_spec a b ha hb
  have hcl := compare_lt_iff a b ha hb
  constructor
  · by_cases hlt : a.totalMs < b.totalMs
    · obtain ⟨e, he⟩ := hs.2 hlt
      rw [he, isOk_error]
      simp only [Timestamp.pyLt, decide_eq_true_eq, hcl]
      simp [hlt]
    · obtain ⟨c', hc', _, _⟩ := hs.1 (by omega)
      rw [hc', isOk_ok]
      simp only [Timestamp.pyLt, decide_eq_true_eq, hcl]
      simp [hlt]
  · intro h
    by_cases hlt : a.totalMs < b.totalMs
    · obtain ⟨e, he⟩ := hs.2 hlt
      rw [he] at h
      simp at h
    · obtain ⟨c', hc', hr, ht'⟩ := hs.1 (by omega)
      rw [hc'] at h
      injection h with h
      subst h
      exact ⟨hr, ht'⟩

/-- Witness for C5: `00:00:00.000 - 00:00:00.001` raises (the spec's own
underflow example). -/
theorem claim_c5_witness :
    ((Timestamp.sub ⟨0, 0, 0, 0⟩ ⟨0, 0, 0, 1⟩).isOk = false ↔
      Timestamp.pyLt ⟨0, 0, 0, 0⟩ ⟨0, 0, 0, 1⟩ = true) ∧
    (Timestamp.sub ⟨0, 0, 0, 0⟩ ⟨0, 0, 0, 1⟩ = .ok ⟨0, 0, 0, 0⟩ →
      Timestamp.inRange ⟨0, 0, 0, 0⟩ ∧
      Timestamp.totalMs ⟨0, 0, 0, 0⟩ =
        Timestamp.totalMs ⟨0, 0, 0, 0⟩ - Timestamp.totalMs ⟨0, 0, 0, 1⟩) :=
  claim_c5 ⟨0, 0, 0, 0⟩ ⟨0, 0, 0, 1⟩ ⟨0, 0, 0, 0⟩ (by decide) (by decide)

/-- `Block` (src/modules/block.py): id, start/end timestamps and text lines.
The `_eventpublisher` reference is not part of the value state; text is the
`_text` list of lines. -/
structure Block where
  id : Int
  starttime : Timestamp
  endtime : Timestamp
  text : List String
deriving DecidableEq

/-- The `BlockField` tag of a `BlockUpdatedEvent` together with the captured
`old_value` (src/modules/block.py lines 38-63: `__setattr__` publishes a
`BlockUpdatedEvent(self, field, cur_value, value)` before writing the new
value).  The event's reference to the mutated block itself is implicit here:
this fragment of the model covers one cue wired to the publisher of its
owning `Subtitle`, so every field event refers to that cue. -/
inductive FieldEvent where
  | updId (old_value : Int)
  | updStart (old_value : Timestamp)
  | updEnd (old_value : Timestamp)
  | updText (old_value : List String)
deriving DecidableEq

/-- The observable state C6 is about: one cue with all fields initialized to
non-`None` values (so `__setattr__`'s `cur_value is not None` guard always
passes and every mutation emits exactly one event) plus the owning
`Subtitle`'s `_mementos` log, appended at the tail, popped from the tail. -/
structure CueLogSt where
  cue : Block
  mementos : List FieldEvent
deriving DecidableEq

/-- `block.id = v` on a wired cue: publish `BlockUpdatedEvent(.., ID, old)`
(which `Subtitle.handle_event` appends to `_mementos`), then store `v`. -/
def CueLogSt.set_id (s : CueLogSt) (v : Int) : CueLogSt :=
  { cue := { s.cue with id := v }, mementos := s.mementos ++ [.updId s.cue.id] }

/-- `block.starttime = v` on a wired cue. -/
def CueLogSt.set_starttime (s : CueLogSt) (v : Timestamp) : CueLogSt :=
  { cue := { s.cue with starttime := v }, mementos := s.mementos ++ [.updStart s.cue.starttime] }

/-- `block.endtime = v` on a wired cue. -/
def CueLogSt.set_endtime (s : CueLogSt) (v : Timestamp) : CueLogSt :=
  { cue := { s.cue with endtime := v }, mementos := s.mementos ++ [.updEnd s.cue.endtime] }

/-- `Block.add_line`: copies the current `_text`, appends the line to the
copy and assigns the copy through `__setattr__`, so the event captures the
entire old list. -/
def CueLogSt.add_line (s : CueLogSt) (line : String) : CueLogSt :=
  { cue := { s.cue with text := s.cue.text ++ [line] },
    mementos := s.mementos ++ [.updText s.cue.text] }

/-- `Subtitle.undo` (src/modules/subtitle.py lines 62-81) restricted to
`BLOCK_UPDATED` events on the single wired cue: pop the most recent log
entry and write the captured `old_value` back into the named field with
`object.__setattr__`, bypassing event emission; on an empty log the
`IndexError` is swallowed and nothing changes. -/
def CueLogSt.undo (s : CueLogSt) : CueLogSt :=
  match s.mementos.getLast? with
  | none => s
  | some ev =>
    let rest := s.mementos.dropLast
    match ev with
    | .updId old => { cue := { s.cue with id := old }, mementos := rest }
    | .updStart old => { cue := { s.cue with starttime := old }, mementos := rest }
    | .updEnd old => { cue := { s.cue with endtime := old }, mementos := rest }
    | .updText old => { cue := { s.cue with text := old }, mementos := rest }

/-- One field mutation of the cue, as in C6: setting id, start or end, or
`add_line`. -/
inductive CueMutation where
  | setId (v : Int)
  | setStart (v : Timestamp)
  | setEnd (v : Timestamp)
  | addLine (line : String)
deriving DecidableEq

/-- Apply one mutation through the evented path. -/
def CueLogSt.applyMutation (s : CueLogSt) : CueMutation → CueLogSt
  | .setId v => s.set_id v
  | .setStart v => s.set_starttime v
  | .setEnd v => s.set_endtime v
  | .addLine l => s.add_line l

/-- Apply a sequence of mutations in order. -/
def CueLogSt.applyMutations (s : CueLogSt) (muts : List CueMutation) : CueLogSt :=
  muts.foldl CueLogSt.applyMutation s

/-- Call `Subtitle.undo` n times. -/
def CueLogSt.undoN : Nat → CueLogSt → CueLogSt
  | 0, s => s
  | n + 1, s => CueLogSt.undoN n s.undo

lemma undoN_succ_outer (n : Nat) (s : CueLogSt) :
    CueLogSt.undoN (n + 1) s = (CueLogSt.undoN n s).undo := by
  induction n generalizing s with
  | zero => rfl
  | succ k ih =>
    show CueLogSt.undoN (k + 1) s.undo = _
    rw [ih s.undo]
    rfl

lemma block_eta (b : Block) : (⟨b.id, b.starttime, b.endtime, b.text⟩ : Block) = b := rfl

/-- Undo exactly inverts one mutation. -/
lemma undo_applyMutation (s : CueLogSt) (m : CueMutation) : (s.applyMutation m).undo = s := by
  cases m <;>
    simp [CueLogSt.applyMutation, CueLogSt.set_id, CueLogSt.set_starttime,
      CueLogSt.set_endtime, CueLogSt.add_line, CueLogSt.undo]

/-- C6: for a cue wired to its owning subtitle's publisher with all fields
initialized, any sequence of n field mutations followed by n `undo()` calls
restores the cue's id, start, end and text to their exact prior values (in
fact the whole state, log included, is restored). -/
theorem claim_c6 (muts : List CueMutation) (s : CueLogSt) :
    (s.applyMutations muts).undoN muts.length = s := by
  induction muts generalizing s with
  | nil => rfl
  | cons m rest ih =>
    show CueLogSt.undoN (rest.length + 1) ((s.applyMutation m).applyMutations rest) = s
    rw [undoN_succ_outer, ih (s.applyMutation m), undo_applyMutation]

/-- CPython's `hash` on an `int`: reduce modulo the Mersenne prime `2^61-1`
keeping the sign, then map `-1` to `-2`. -/
def pyIntHash (n : Int) : Int :=
  let h := if n < 0 then -((-n) % (2 ^ 61 - 1)) else n % (2 ^ 61 - 1)
  if h = -1 then -2 else h

/-- `Block.__hash__` (src/modules/block.py line 87):
`hash(id) + hash(starttime) + hash(endtime) + hash(join(text))`.  The string
hash is CPython's randomized string hash, kept abstract as a parameter
`strHash`; the final machine-word truncation CPython applies to a
`__hash__` result is not modelled (it is the identity on all values the
in-range model produces up to the abstract string hash). -/
def Block.pyHash (strHash : String → Int) (b : Block) : Int :=
  pyIntHash b.id + b.starttime.pyHash + b.endtime.pyHash +
    strHash (String.intercalate "\n" b.text)

/-- `Block.__eq__`: `hash(self) == hash(other)`. -/
def Block.pyEq (strHash : String → Int) (a b : Block) : Bool :=
  Block.pyHash strHash a == Block.pyHash strHash b

/-- Python `==` on elements of `self._blocks`, which may hold `None`
(`BlockBuilder.build` returns `None` when a field is falsy): `None` equals
only `None`; a `Block` compares by `Block.__eq__`. -/
def optBlockPyEq (strHash : String → Int) : Option Block → Option Block → Bool
  | none, none => true
  | some a, some b => Block.pyEq strHash a b
  | _, _ => false

/-- Python `block in self._blocks`. -/
def pyContains (strHash : String → Int) (l : List (Option Block)) (b : Option Block) : Bool :=
  l.any fun x => optBlockPyEq strHash x b

/-- The events a `Subtitle`'s own operations publish; every published event
is appended to the subtitle's `_mementos` log, because the subtitle's
`handle_event` is the publisher's sole subscriber (wired in `__init__`).
`blockUpdatedId` carries the old and new id of the `try_fix` correction in
`validate`; the event's object reference to the block is not part of the
value model. -/
inductive SubEvent where
  | blockAdded (block : Option Block)
  | blockRemoved (block : Option Block)
  | blockUpdatedId (old_value new_value : Int)
deriving DecidableEq

/-- The `Subtitle`'s mutable state: the ordered `_blocks` collection and the
`_mementos` event log. -/
structure SubtitleSt where
  blocks : List (Option Block)
  mementos : List SubEvent
deriving DecidableEq

/-- `Subtitle.insert_block` (src/modules/subtitle.py lines 87-97): reject
(returning `False`) if an equal block is already present; otherwise append
the block, publish `BlockAddedEvent(block)` — which the subtitle's own
`handle_event` appends to `_mementos` — and return `True`. -/
def SubtitleSt.insert_block (strHash : String → Int) (s : SubtitleSt)
    (block : Option Block) : Bool × SubtitleSt :=
  if pyContains strHash s.blocks block then (false, s)
  else (true, { blocks := s.blocks ++ [block],
                mementos := s.mementos ++ [SubEvent.blockAdded block] })

/-- C7: inserting a cue equal (under the code's hash-based cue equality) to
one already in the collection returns `False` and leaves both the collection
and the event log unchanged; otherwise `insert` returns `True`, appends the
cue to the collection and appends exactly one `CueAdded` event to the log. -/
theorem claim_c7 (strHash : String → Int) (s : SubtitleSt) (c : Block) :
    (pyContains strHash s.blocks (some c) = true →
      s.insert_block strHash (some c) = (false, s)) ∧
    (pyContains strHash s.blocks (some c) = false →
      s.insert_block strHash (some c) =
        (true, { blocks := s.blocks ++ [some c],
                 mementos := s.mementos ++ [SubEvent.blockAdded (some c)] })) := by
  constructor
  · intro h
    unfold SubtitleSt.insert_block
    rw [if_pos h]
  · intro h
    unfold SubtitleSt.insert_block
    rw [if_neg (by simp [h])]

/-- Witness for C7: inserting a duplicate of the single existing cue is
rejected with the state unchanged. -/
theorem claim_c7_witness :
    pyContains (fun _ => 0)
        [some ⟨1, ⟨0, 0, 1, 0⟩, ⟨0, 0, 2, 0⟩, ["Hi"]⟩] (some ⟨1, ⟨0, 0, 1, 0⟩, ⟨0, 0, 2, 0⟩, ["Hi"]⟩) = true ∧
    SubtitleSt.insert_block (fun _ => 0)
        ⟨[some ⟨1, ⟨0, 0, 1, 0⟩, ⟨0, 0, 2, 0⟩, ["Hi"]⟩], []⟩
        (some ⟨1, ⟨0, 0, 1, 0⟩, ⟨0, 0, 2, 0⟩, ["Hi"]⟩) =
      (false, ⟨[some ⟨1, ⟨0, 0, 1, 0⟩, ⟨0, 0, 2, 0⟩, ["Hi"]⟩], []⟩) :=
  ⟨by rfl,
    (claim_c7 (fun _ => 0) ⟨[some ⟨1, ⟨0, 0, 1, 0⟩, ⟨0, 0, 2, 0⟩, ["Hi"]⟩], []⟩
      ⟨1, ⟨0, 0, 1, 0⟩, ⟨0, 0, 2, 0⟩, ["Hi"]⟩).1 (by rfl)⟩

/-- Python regex `\s` on the ASCII range: space, tab, newline, carriage
return, vertical tab, form feed. -/
def isPySpace (c : Char) : Bool :=
  c == ' ' || c == '\t' || c == '\n' || c == '\r' || c == '\x0b' || c == '\x0c'

/-- Numeric value of a digit string. -/
def digitsToNat (cs : List Char) : Nat :=
  cs.foldl (fun acc c => acc * 10 + (c.toNat - '0'.toNat)) 0

/-- `pattern_id = r'[0-9]+\n'` under `fullmatch`: the whole line is one or
more decimal digits followed by exactly one newline; the value is
`int(line)`. -/
def idLine? (cs : List Char) : Option Int :=
  if cs.getLast? = some '\n' ∧ cs.dropLast ≠ [] ∧ cs.dropLast.all Char.isDigit
  then some (digitsToNat cs.dropLast) else none

/-- One `HH:MM:SS[,.]mmm` group (`pattern_time_detail`), as the four captured
integers. -/
structure TimeQuad where
  h : Int
  m : Int
  s : Int
  ms : Int
deriving DecidableEq

/-- `pattern_time` under `fullmatch`: two fixed-width `HH:MM:SS[,.]mmm`
groups joined by `\x20-->\x20`, followed by `\s*`.  Matching the fixed-width
pattern structurally on the character list. -/
def timeLine? (cs : List Char) : Option (TimeQuad × TimeQuad) :=
  match cs with
  | h1 :: h2 :: ':' :: m1 :: m2 :: ':' :: s1 :: s2 :: sep :: x1 :: x2 :: x3 ::
    ' ' :: '-' :: '-' :: '>' :: ' ' ::
    g1 :: g2 :: ':' :: n1 :: n2 :: ':' :: t1 :: t2 :: sep2 :: y1 :: y2 :: y3 :: rest =>
    if h1.isDigit ∧ h2.isDigit ∧ m1.isDigit ∧ m2.isDigit ∧ s1.isDigit ∧ s2.isDigit ∧
       (sep = ',' ∨ sep = '.') ∧ x1.isDigit ∧ x2.isDigit ∧ x3.isDigit ∧
       g1.isDigit ∧ g2.isDigit ∧ n1.isDigit ∧ n2.isDigit ∧ t1.isDigit ∧ t2.isDigit ∧
       (sep2 = ',' ∨ sep2 = '.') ∧ y1.isDigit ∧ y2.isDigit ∧ y3.isDigit ∧
       rest.all isPySpace
    then some (⟨digitsToNat [h1, h2], digitsToNat [m1, m2], digitsToNat [s1, s2],
                digitsToNat [x1, x2, x3]⟩,
               ⟨digitsToNat [g1, g2], digitsToNat [n1, n2], digitsToNat [t1, t2],
                digitsToNat [y1, y2, y3]⟩)
    else none
  | _ => none

/-- `TimestampBuilder().with_hours(..).with_minutes(..).with_seconds(..)
.with_milliseconds(..).build()` on one captured group; `with_minutes` and
friends raise `InvalidTimeException` on out-of-range captures such as a
minutes field of 60-99. -/
def buildCapturedTime (q : TimeQuad) : Except TimeField Timestamp :=
  ((((TimestampBuilder.init.with_hours q.h).bind
      fun b => b.with_minutes q.m).bind
      fun b => b.with_seconds q.s).bind
      fun b => b.with_milliseconds q.ms).map TimestampBuilder.build

/-- `str.replace(line, '\n', '')`. -/
def stripNewlines (line : String) : String :=
  String.mk (line.data.filter fun c => !(c == '\n'))

/-- The classification result of `Subtitle.parse_line` — the returned
`(parsed value, LineType)` pair collapsed into one tagged value, since the
source always pairs each `LineType` with the same shape of value. -/
inductive ParsedLine where
  | emptyLine
  | idLine (n : Int)
  | timeLine (starttime endtime : Timestamp)
  | textLine (s : String)
deriving DecidableEq

/-- The `LineType` enum of src/modules/subtitle.py. -/
inductive LineType where
  | ID
  | TIME
  | TEXT
  | EMPTY
deriving DecidableEq

/-- The `LineType` of a classified line. -/
def ParsedLine.kind : ParsedLine → LineType
  | .emptyLine => .EMPTY
  | .idLine _ => .ID
  | .timeLine _ _ => .TIME
  | .textLine _ => .TEXT

/-- `Subtitle.parse_line` (src/modules/subtitle.py lines 238-273): first
match wins among whitespace-only (`pattern_empty`), digits-plus-newline
(`pattern_id`), the time-range pattern (`pattern_time`, each side built by a
`TimestampBuilder`, which can raise), and finally text with all newlines
removed. -/
def parse_line (line : String) : Except TimeField ParsedLine :=
  if line.data.all isPySpace then .ok .emptyLine
  else
    match idLine? line.data with
    | some n => .ok (.idLine n)
    | none =>
      match timeLine? line.data with
      | some (q1, q2) =>
        (buildCapturedTime q1).bind fun starttime =>
          (buildCapturedTime q2).map fun endtime => .timeLine starttime endtime
      | none => .ok (.textLine (stripNewlines line))

/-- `BlockBuilder` (src/modules/block.py lines 99-111). -/
structure BlockBuilder where
  id : Option Int
  starttime : Option Timestamp
  endtime : Option Timestamp
  text : List String
deriving DecidableEq

/-- `BlockBuilder()`. -/
def BlockBuilder.init : BlockBuilder := ⟨none, none, none, []⟩

/-- `BlockBuilder.build`: `if self.id and self.starttime and self.endtime`
constructs the `Block`, otherwise the function falls through and returns
`None`.  Python truthiness: a `None` or zero id is falsy; `Timestamp`
objects (no `__bool__`/`__len__`) are always truthy. -/
def BlockBuilder.build (b : BlockBuilder) : Option Block :=
  match b.id, b.starttime, b.endtime with
  | some i, some st, some et => if i ≠ 0 then some ⟨i, st, et, b.text⟩ else none
  | _, _, _ => none

/-- The `ParseException` messages of `Subtitle.parse_file`, with the data
each message interpolates: four of the six name the offending 0-based line
index, `'Invalid start of file'` names nothing, and the duplicate message
names `block_builder.id` instead of a line index. -/
inductive ParseErr where
  | invalidStart
  | idNotFollowedByTime (index : Nat)
  | timeNotFollowedByText (index : Nat)
  | textNotFollowed (index : Nat)
  | missingSpace (index : Nat)
  | duplicateId (id : Option Int)
deriving DecidableEq

/-- The 0-based line index a `ParseException` message carries, if any. -/
def ParseErr.lineIndex : ParseErr → Option Nat
  | .idNotFollowedByTime i => some i
  | .timeNotFollowedByText i => some i
  | .textNotFollowed i => some i
  | .missingSpace i => some i
  | .invalidStart => none
  | .duplicateId _ => none

/-- Whether the error is the duplicate-id rejection. -/
def ParseErr.isDuplicate : ParseErr → Bool
  | .duplicateId _ => true
  | _ => false

/-- An error escaping `parse_file`: either a `ParseException` or an
`InvalidTimeException` raised by the `TimestampBuilder` inside
`parse_line`. -/
inductive FileErr where
  | parseE (e : ParseErr)
  | timeE (e : TimeField)
deriving DecidableEq

/-- The parser's loop state: `prev_state` (`None` before the first line),
the current `block_builder`, and the subtitle being populated. -/
structure ParserSt where
  prev_state : Option LineType
  builder : BlockBuilder
  sub : SubtitleSt
deriving DecidableEq

/-- Processing of one line by the body of the `for` loop in
`Subtitle.parse_file` (src/modules/subtitle.py lines 176-236): classify the
line, then branch on `prev_state`.  `last_line` is `len(lines) - 1`; the
end-of-file finalization check `index == last_line` exists only in the
`TEXT`-after-`TEXT` branch. -/
def parse_step (strHash : String → Int) (last_line index : Nat) (st : ParserSt)
    (line : String) : Except FileErr ParserSt :=
  match parse_line line with
  | .error e => .error (.timeE e)
  | .ok pl =>
    match st.prev_state with
    | none | some LineType.EMPTY =>
      match pl with
      | .emptyLine => .ok { st with prev_state := some LineType.EMPTY }
      | .idLine n =>
        .ok { st with
              prev_state := some LineType.ID,
              builder := { id := some n, starttime := none, endtime := none, text := [] } }
      | _ => .error (.parseE .invalidStart)
    | some LineType.ID =>
      match pl with
      | .timeLine t1 t2 =>
        .ok { st with
              prev_state := some LineType.TIME,
              builder := { st.builder with starttime := some t1, endtime := some t2 } }
      | _ => .error (.parseE (.idNotFollowedByTime index))
    | some LineType.TIME =>
      match pl with
      | .textLine s =>
        .ok { st with
              prev_state := some LineType.TEXT,
              builder := { st.builder with text := st.builder.text ++ [s] } }
      | _ => .error (.parseE (.timeNotFollowedByText index))
    | some LineType.TEXT =>
      match pl with
      | .textLine s =>
        let b' : BlockBuilder := { st.builder with text := st.builder.text ++ [s] }
        if index = last_line then
          match SubtitleSt.insert_block strHash st.sub b'.build with
          | (false, _) => .error (.parseE (.duplicateId b'.id))
          | (true, sub') => .ok { prev_state := some LineType.TEXT, builder := b', sub := sub' }
        else
          .ok { st with
                prev_state := some LineType.TEXT,
                builder := b' }
      | .emptyLine =>
        match SubtitleSt.insert_block strHash st.sub st.builder.build with
        | (false, _) => .error (.parseE (.duplicateId st.builder.id))
        | (true, sub') =>
          .ok { st with
                prev_state := some LineType.EMPTY,
                sub := sub' }
      | .idLine _ => .error (.parseE (.missingSpace index))
      | .timeLine _ _ => .error (.parseE (.textNotFollowed index))

/-- The `for (index, line) in enumerate(lines)` loop of `parse_file`. -/
def parse_file_aux (strHash : String → Int) (last_line : Nat) :
    Nat → ParserSt → List String → Except FileErr ParserSt
  | _, st, [] => .ok st
  | index, st, line :: rest =>
    match parse_step strHash last_line index st line with
    | .error e => .error e
    | .ok st' => parse_file_aux strHash last_line (index + 1) st' rest

/-- The parser state of a freshly constructed `Subtitle`. -/
def initParserSt : ParserSt := ⟨none, BlockBuilder.init, ⟨[], []⟩⟩

/-- `Subtitle.parse_file`, with the file replaced by its `readlines` result:
runs the loop over all lines with `last_line = len(lines) - 1`; nothing runs
after the loop, so the final loop state is the function's entire effect. -/
def parse_file (strHash : String → Int) (lines : List String) : Except FileErr ParserSt :=
  parse_file_aux strHash (lines.length - 1) 0 initParserSt lines

/-- Any `ParseException` produced by one loop iteration either interpolates
that iteration's 0-based `index` into its message, or is one of the two
messages that carry no line index. -/
lemma parse_step_err (strHash : String → Int) (last_line index : Nat) (st : ParserSt)
    (line : String) (e : ParseErr)
    (h : parse_step strHash last_line index st line = .error (.parseE e)) :
    e.lineIndex = some index ∨ e.lineIndex = none := by
  unfold parse_step at h
  dsimp only at h
  repeat' split at h
  all_goals
    first
      | (simp at h; done)
      | (injection h with h; injection h with h; subst h; simp [ParseErr.lineIndex]; done)

/-- A loop iteration that ends with `prev_state` equal to `ID` or `TIME`
never calls `insert_block`: the subtitle state is unchanged. -/
lemma parse_step_to_id_or_time (strHash : String → Int) (last_line index : Nat)
    (st st' : ParserSt) (line : String)
    (hok : parse_step strHash last_line index st line = .ok st')
    (hend : st'.prev_state = some LineType.ID ∨ st'.prev_state = some LineType.TIME) :
    st'.sub = st.sub := by
  unfold parse_step at hok
  dsimp only at hok
  repeat' split at hok
  all_goals
    first
      | (simp at hok; done)
      | (injection hok with hok; subst hok; rfl)
      | (injection hok with hok; subst hok;
         rcases hend with hend | hend <;> simp at hend
         done)

/-- C3 fails on the code: in this input the last line is the text line of the
cue under construction and arrives from `SeenTime` (it is the cue's first
text line), the machine ends in `SeenText` having appended it — yet the
completed cue is never inserted, because the `index == last_line`
finalization check exists only in the `SeenText`-to-`SeenText` branch: the
resulting collection is empty. -/
theorem claim_c3_counterexample :
    parse_file (fun _ => 0) ["1\n", "00:00:01,000 --> 00:00:02,000\n", "Hello"] =
      .ok ⟨some LineType.TEXT,
           ⟨some 1, some ⟨0, 0, 1, 0⟩, some ⟨0, 0, 2, 0⟩, ["Hello"]⟩,
           ⟨[], []⟩⟩ := by decide

/-- C3 amended: the end-of-file finalization happens only when the last text
line arrives while the machine is already in `SeenText` (the cue has at
least two text lines); then the builder is finalized and inserted, with the
`CueAdded` event logged.  When the last line arrives from `SeenTime` (a cue
whose only text line ends the file), the cue is silently dropped: the
subtitle state is unchanged. -/
theorem claim_c3_amended (strHash : String → Int) (last_line index : Nat) (st st' : ParserSt)
    (line s : String)
    (htext : parse_line line = .ok (.textLine s))
    (hlast : index = last_line)
    (hok : parse_step strHash last_line index st line = .ok st') :
    (st.prev_state = some LineType.TEXT →
      st'.sub.blocks = st.sub.blocks ++
        [BlockBuilder.build { st.builder with text := st.builder.text ++ [s] }] ∧
      st'.sub.mementos = st.sub.mementos ++
        [SubEvent.blockAdded
          (BlockBuilder.build { st.builder with text := st.builder.text ++ [s] })] ∧
      st'.prev_state = some LineType.TEXT) ∧
    (st.prev_state = some LineType.TIME →
      st'.sub = st.sub ∧ st'.prev_state = some LineType.TEXT) := by
  unfold parse_step at hok
  rw [htext] at hok
  constructor
  · intro hprev
    rw [hprev] at hok
    dsimp only at hok
    rw [if_pos hlast] at hok
    by_cases hdup : pyContains strHash st.sub.blocks
        (BlockBuilder.build ⟨st.builder.id, st.builder.starttime, st.builder.endtime,
          st.builder.text ++ [s]⟩) = true
    · have hins : SubtitleSt.insert_block strHash st.sub
          (BlockBuilder.build ⟨st.builder.id, st.builder.starttime, st.builder.endtime,
            st.builder.text ++ [s]⟩) = (false, st.sub) := by
        unfold SubtitleSt.insert_block
        rw [if_pos hdup]
      rw [hins] at hok
      simp at hok
    · have hins : SubtitleSt.insert_block strHash st.sub
          (BlockBuilder.build ⟨st.builder.id, st.builder.starttime, st.builder.endtime,
            st.builder.text ++ [s]⟩) =
          (true,
           { blocks := st.sub.blocks ++
               [BlockBuilder.build ⟨st.builder.id, st.builder.starttime, st.builder.endtime,
                 st.builder.text ++ [s]⟩],
             mementos := st.sub.mementos ++
               [SubEvent.blockAdded (BlockBuilder.build ⟨st.builder.id, st.builder.starttime,
                 st.builder.endtime, st.builder.text ++ [s]⟩)] }) := by
        unfold SubtitleSt.insert_block
        rw [if_neg (by simp [hdup])]
      rw [hins] at hok
      dsimp only at hok
      injection hok with hok
      subst hok
      exact ⟨rfl, rfl, rfl⟩
  · intro hprev
    rw [hprev] at hok
    dsimp only at hok
    injection hok with hok
    subst hok
    exact ⟨rfl, rfl⟩

/-- Witness for C3 amended: a second text line at end of file is finalized
and inserted. -/
theorem claim_c3_amended_witness :
    ((some LineType.TEXT = some LineType.TEXT →
      SubtitleSt.blocks (ParserSt.sub ⟨some LineType.TEXT,
          ⟨some 1, some ⟨0, 0, 1, 0⟩, some ⟨0, 0, 2, 0⟩, ["a", "b"]⟩,
          ⟨[some ⟨1, ⟨0, 0, 1, 0⟩, ⟨0, 0, 2, 0⟩, ["a", "b"]⟩],
           [SubEvent.blockAdded (some ⟨1, ⟨0, 0, 1, 0⟩, ⟨0, 0, 2, 0⟩, ["a", "b"]⟩)]⟩⟩) =
        SubtitleSt.blocks (ParserSt.sub ⟨some LineType.TEXT,
          ⟨some 1, some ⟨0, 0, 1, 0⟩, some ⟨0, 0, 2, 0⟩, ["a"]⟩, ⟨[], []⟩⟩) ++
          [BlockBuilder.build { (⟨some 1, some ⟨0, 0, 1, 0⟩, some ⟨0, 0, 2, 0⟩,
            ["a"]⟩ : BlockBuilder) with text := ["a"] ++ ["b"] }] ∧
      SubtitleSt.mementos (ParserSt.sub ⟨some LineType.TEXT,
          ⟨some 1, some ⟨0, 0, 1, 0⟩, some ⟨0, 0, 2, 0⟩, ["a", "b"]⟩,
          ⟨[some ⟨1, ⟨0, 0, 1, 0⟩, ⟨0, 0, 2, 0⟩, ["a", "b"]⟩],
           [SubEvent.blockAdded (some ⟨1, ⟨0, 0, 1, 0⟩, ⟨0, 0, 2, 0⟩, ["a", "b"]⟩)]⟩⟩) =
        SubtitleSt.mementos (ParserSt.sub ⟨some LineType.TEXT,
          ⟨some 1, some ⟨0, 0, 1, 0⟩, some ⟨0, 0, 2, 0⟩, ["a"]⟩, ⟨[], []⟩⟩) ++
          [SubEvent.blockAdded (BlockBuilder.build { (⟨some 1, some ⟨0, 0, 1, 0⟩,
            some ⟨0, 0, 2, 0⟩, ["a"]⟩ : BlockBuilder) with text := ["a"] ++ ["b"] })] ∧
      ParserSt.prev_state ⟨some LineType.TEXT,
          ⟨some 1, some ⟨0, 0, 1, 0⟩, some ⟨0, 0, 2, 0⟩, ["a", "b"]⟩,
          ⟨[some ⟨1, ⟨0, 0, 1, 0⟩, ⟨0, 0, 2, 0⟩, ["a", "b"]⟩],
           [SubEvent.blockAdded (some ⟨1, ⟨0, 0, 1, 0⟩, ⟨0, 0, 2, 0⟩, ["a", "b"]⟩)]⟩⟩ =
        some LineType.TEXT) ∧
     (some LineType.TEXT = some LineType.TIME →
      ParserSt.sub ⟨some LineType.TEXT,
          ⟨some 1, some ⟨0, 0, 1, 0⟩, some ⟨0, 0, 2, 0⟩, ["a", "b"]⟩,
          ⟨[some ⟨1, ⟨0, 0, 1, 0⟩, ⟨0, 0, 2, 0⟩, ["a", "b"]⟩],
           [SubEvent.blockAdded (some ⟨1, ⟨0, 0, 1, 0⟩, ⟨0, 0, 2, 0⟩, ["a", "b"]⟩)]⟩⟩ =
        ParserSt.sub ⟨some LineType.TEXT,
          ⟨some 1, some ⟨0, 0, 1, 0⟩, some ⟨0, 0, 2, 0⟩, ["a"]⟩, ⟨[], []⟩⟩ ∧
      ParserSt.prev_state ⟨some LineType.TEXT,
          ⟨some 1, some ⟨0, 0, 1, 0⟩, some ⟨0, 0, 2, 0⟩, ["a", "b"]⟩,
          ⟨[some ⟨1, ⟨0, 0, 1, 0⟩, ⟨0, 0, 2, 0⟩, ["a", "b"]⟩],
           [SubEvent.blockAdded (some ⟨1, ⟨0, 0, 1, 0⟩, ⟨0, 0, 2, 0⟩, ["a", "b"]⟩)]⟩⟩ =
        some LineType.TEXT)) :=
  claim_c3_amended (fun _ => 0) 3 3
    ⟨some LineType.TEXT, ⟨some 1, some ⟨0, 0, 1, 0⟩, some ⟨0, 0, 2, 0⟩, ["a"]⟩, ⟨[], []⟩⟩
    ⟨some LineType.TEXT,
     ⟨some 1, some ⟨0, 0, 1, 0⟩, some ⟨0, 0, 2, 0⟩, ["a", "b"]⟩,
     ⟨[some ⟨1, ⟨0, 0, 1, 0⟩, ⟨0, 0, 2, 0⟩, ["a", "b"]⟩],
      [SubEvent.blockAdded (some ⟨1, ⟨0, 0, 1, 0⟩, ⟨0, 0, 2, 0⟩, ["a", "b"]⟩)]⟩⟩
    "b" "b" (by decide) rfl (by decide)

/-- The parse loop over `xs ++ ys` runs `xs` first and, if no error was
raised, continues with `ys` at the shifted index. -/
lemma parse_file_aux_append (strHash : String → Int) (last_line : Nat) (xs : List String) :
    ∀ (ys : List String) (i : Nat) (st : ParserSt),
      parse_file_aux strHash last_line i st (xs ++ ys) =
        match parse_file_aux strHash last_line i st xs with
        | .error e => .error e
        | .ok st' => parse_file_aux strHash last_line (i + xs.length) st' ys := by
  induction xs with
  | nil =>
    intro ys i st
    rfl
  | cons line rest ih =>
    intro ys i st
    show parse_file_aux strHash last_line i st (line :: (rest ++ ys)) = _
    unfold parse_file_aux
    cases hstep : parse_step strHash last_line i st line with
    | error e => rfl
    | ok st2 =>
      dsimp only
      rw [ih ys (i + 1) st2]
      simp only [List.length_cons]
      have harith : i + 1 + rest.length = i + (rest.length + 1) := by omega
      rw [harith]
      cases haux : parse_file_aux strHash last_line (i + 1) st2 rest with
      | error e => rfl
      | ok s3 =>
        cases ys with
        | nil => rfl
        | cons y ys2 => rfl

/-- C10: when the input ends right after an id line or a time-range line —
the loop finishes with the machine in `SeenId` or `SeenTime` — `parse_file`
returns normally (nothing after the loop checks for an unfinished cue) and
the final iteration leaves the subtitle untouched, so the incomplete cue is
silently dropped. -/
theorem claim_c10 (strHash : String → Int) (lines init : List String) (last : String)
    (ps0 ps1 : ParserSt)
    (hsplit : lines = init ++ [last])
    (hinit : parse_file_aux strHash (lines.length - 1) 0 initParserSt init = .ok ps0)
    (hstep : parse_step strHash (lines.length - 1) init.length ps0 last = .ok ps1)
    (hend : ps1.prev_state = some LineType.ID ∨ ps1.prev_state = some LineType.TIME) :
    parse_file strHash lines = .ok ps1 ∧ ps1.sub = ps0.sub := by
  constructor
  · subst hsplit
    unfold parse_file
    rw [parse_file_aux_append strHash ((init ++ [last]).length - 1) init [last] 0 initParserSt,
      hinit]
    dsimp only
    unfold parse_file_aux
    rw [show (0 : Nat) + init.length = init.length from by omega, hstep]
    rfl
  · exact parse_step_to_id_or_time strHash (lines.length - 1) init.length ps0 ps1 last
      hstep hend

/-- Witness for C10: a file consisting of a single id line parses normally,
ends in `SeenId`, and inserts nothing. -/
theorem claim_c10_witness :
    parse_file (fun _ => 0) ["1\n"] =
      .ok ⟨some LineType.ID, ⟨some 1, none, none, []⟩, ⟨[], []⟩⟩ ∧
    ParserSt.sub ⟨some LineType.ID, ⟨some 1, none, none, []⟩, ⟨[], []⟩⟩ =
      ParserSt.sub initParserSt :=
  claim_c10 (fun _ => 0) ["1\n"] [] "1\n" initParserSt
    ⟨some LineType.ID, ⟨some 1, none, none, []⟩, ⟨[], []⟩⟩
    rfl rfl (by decide) (Or.inl rfl)

/-- If the loop starting at index `i` raises a `ParseException` that carries
a line index, that index is one of the indices of the processed slice. -/
lemma parse_file_aux_err (strHash : String → Int) (last_line : Nat) (xs : List String) :
    ∀ (i : Nat) (st : ParserSt) (e : ParseErr) (j : Nat),
      parse_file_aux strHash last_line i st xs = .error (.parseE e) →
      e.lineIndex = some j → i ≤ j ∧ j < i + xs.length := by
  induction xs with
  | nil =>
    intro i st e j h hj
    exact absurd h (by simp [parse_file_aux])
  | cons line rest ih =>
    intro i st e j h hj
    unfold parse_file_aux at h
    cases hstep : parse_step strHash last_line i st line with
    | error err =>
      rw [hstep] at h
      dsimp only at h
      injection h with h
      subst h
      rcases parse_step_err strHash last_line i st line e hstep with hx | hx
      · rw [hx] at hj
        injection hj with hj
        simp [List.length_cons]
        omega
      · rw [hx] at hj
        exact absurd hj (by simp)
    | ok st2 =>
      rw [hstep] at h
      dsimp only at h
      have := ih (i + 1) st2 e j h hj
      simp [List.length_cons]
      omega

/-- C8 fails on the code: a file whose first line is a text line raises the
`ParseException('Invalid start of file')`, whose message interpolates no
line index at all. -/
theorem claim_c8_counterexample :
    parse_file (fun _ => 0) ["Hello\n"] = .error (.parseE ParseErr.invalidStart) ∧
    ParseErr.lineIndex ParseErr.invalidStart = none := by
  constructor
  · decide
  · rfl

/-- C8 amended: every `ParseException` raised by `parse_file` either carries
the 0-based index of the offending line — and any index it carries is a real
index of the input — or is one of the two messages without a line index: the
invalid-start error and the duplicate-id error (which names the builder's id
instead). -/
theorem claim_c8_amended (strHash : String → Int) (lines : List String) (e : ParseErr)
    (i : Nat) (h : parse_file strHash lines = .error (.parseE e)) :
    (e.lineIndex = some i → i < lines.length) ∧
    (e.lineIndex = none → e = ParseErr.invalidStart ∨ e.isDuplicate = true) := by
  constructor
  · intro hi
    have := parse_file_aux_err strHash (lines.length - 1) lines 0 initParserSt e i h hi
    omega
  · intro hn
    cases e with
    | invalidStart => exact Or.inl rfl
    | duplicateId b => exact Or.inr rfl
    | idNotFollowedByTime k => exact absurd hn (by simp [ParseErr.lineIndex])
    | timeNotFollowedByText k => exact absurd hn (by simp [ParseErr.lineIndex])
    | textNotFollowed k => exact absurd hn (by simp [ParseErr.lineIndex])
    | missingSpace k => exact absurd hn (by simp [ParseErr.lineIndex])

/-- Witness for C8 amended: an id line followed by a text line raises the
indexed id-not-followed-by-time error at index 1, a real line index. -/
theorem claim_c8_amended_witness :
    (ParseErr.lineIndex (ParseErr.idNotFollowedByTime 1) = some 1 →
      1 < (["1\n", "x\n"] : List String).length) ∧
    (ParseErr.lineIndex (ParseErr.idNotFollowedByTime 1) = none →
      ParseErr.idNotFollowedByTime 1 = ParseErr.invalidStart ∨
      ParseErr.isDuplicate (ParseErr.idNotFollowedByTime 1) = true) :=
  claim_c8_amended (fun _ => 0) ["1\n", "x\n"] (ParseErr.idNotFollowedByTime 1) 1 (by decide)

/-- Python truthiness of a `Timestamp` object: `Timestamp` defines neither
`__bool__` nor `__len__`, so every instance is truthy — the
`if not block.starttime` / `if not block.endtime` checks in `validate` can
never fire on a constructed `Block`. -/
def tsTruthy (_ : Timestamp) : Bool := true

/-- The body of the `for (counter, block) in enumerate(self._blocks)` loop of
`Subtitle.validate` (src/modules/subtitle.py lines 112-153) for one block:
the error tags appended to this block's `ValidationError`, the block after
the optional `try_fix` id correction (which flows through `__setattr__` and
therefore publishes a `BlockUpdatedEvent` that lands in `_mementos`), and
the events so published.  Note the source's copy-paste slip: the
`endtime` presence check appends the tag `'missing starttime'`. -/
def validate_block (try_fix : Bool) (counter : Nat)
    (last_starttime last_endtime : Option Timestamp) (block : Block) :
    Block × List String × List SubEvent :=
  let e1 := if block.id = 0 then ["missing id"] else []
  let e2 := if tsTruthy block.starttime = false then ["missing starttime"] else []
  let e3 := if tsTruthy block.endtime = false then ["missing starttime"] else []
  let e4 := if block.text.isEmpty then ["missing text"] else []
  let e5 := if block.id ≠ (counter : Int) + 1 then ["wrong id"] else []
  let fixres :=
    if block.id ≠ (counter : Int) + 1 then
      if try_fix then
        ({ block with id := (counter : Int) + 1 },
         [SubEvent.blockUpdatedId block.id ((counter : Int) + 1)])
      else (block, [])
    else (block, [])
  let e6 := if block.starttime.pyGe block.endtime then ["starttime >= endtime"] else []
  let e7 :=
    match last_starttime with
    | some lst =>
      (if block.starttime.pyLe lst then ["starttime <= last_starttime"] else []) ++
      (if block.endtime.pyLe lst then ["endtime <= last_starttime"] else [])
    | none => []
  let e8 :=
    match last_endtime with
    | some lend =>
      (if block.starttime.pyLe lend then ["starttime <= last_endtime"] else []) ++
      (if block.endtime.pyLe lend then ["endtime <= last_endtime"] else [])
    | none => []
  (fixres.1, e1 ++ e2 ++ e3 ++ e4 ++ e5 ++ e6 ++ e7 ++ e8, fixres.2)

/-- The whole `validate` loop: threads `counter`, `last_starttime` and
`last_endtime`, collects the per-block `ValidationError`s whose tag list is
non-empty (recorded with the block as it stands after its own iteration),
and the published events. -/
def validate_loop (try_fix : Bool) :
    Nat → Option Timestamp → Option Timestamp → List Block →
    List Block × List (Block × List String) × List SubEvent
  | _, _, _, [] => ([], [], [])
  | counter, last_st, last_et, block :: rest =>
    let step := validate_block try_fix counter last_st last_et block
    let restRes := validate_loop try_fix (counter + 1)
      (some step.1.starttime) (some step.1.endtime) rest
    (step.1 :: restRes.1,
     (if step.2.1.length > 0 then (step.1, step.2.1) :: restRes.2.1 else restRes.2.1),
     step.2.2 ++ restRes.2.2)

/-- `Subtitle.validate` (src/modules/subtitle.py lines 106-153).  The
in-place `self._blocks.sort()` is modelled by taking the already-sorted
collection as input (`Block.__lt__` requires BOTH start and end to be
smaller, which is not a total order, so the Timsort result is
implementation-defined).  The function returns the updated collection and
the published events as the state effect — and `none` as the Python return
value: the body builds the local `errors` list but ends without ever
executing a `return` statement, so the call evaluates to `None` despite the
`-> ['ValidationError']` annotation. -/
def validate (try_fix : Bool) (sorted_blocks : List Block) :
    (List Block × List SubEvent) × Option (List (Block × List String)) :=
  let r := validate_loop try_fix 0 none none sorted_blocks
  ((r.1, r.2.2), none)

/-- The value of the local variable `errors` when the loop of
`Subtitle.validate` finishes — what the annotation promises the function
returns. -/
def validate_errors (try_fix : Bool) (sorted_blocks : List Block) :
    List (Block × List String) :=
  (validate_loop try_fix 0 none none sorted_blocks).2.1

/-- C2 is right about the intent and the code drops the result: on a
single-cue collection whose cue has the wrong id, the loop computes the
promised per-cue report `[(cue, ['wrong id'])]`, but `validate` returns
`None` because the function body has no `return` statement. -/
theorem claim_c2_code_bug :
    (validate false [⟨2, ⟨0, 0, 1, 0⟩, ⟨0, 0, 2, 0⟩, ["Hi"]⟩]).2 = none ∧
    validate_errors false [⟨2, ⟨0, 0, 1, 0⟩, ⟨0, 0, 2, 0⟩, ["Hi"]⟩] =
      [(⟨2, ⟨0, 0, 1, 0⟩, ⟨0, 0, 2, 0⟩, ["Hi"]⟩, ["wrong id"])] := by
  constructor
  · rfl
  · decide
